import Mathlib

/-!
Verification of the local-service supervisor script (start_local_services.py).

We shallowly embed the script's functions over explicit small-step data:
HTTP outcomes, managed-process records, and action traces, each translated
directly from the source. External effects (HTTP requests, process spawns,
docker commands, sys.exit) are made visible as constructors of action types,
and oracles (functions from poll index or URL to an outcome) stand for the
nondeterministic environment.
-/

namespace LocalServices

/-! ## Configuration constants (source lines 24-40) -/

def STT_HEALTH : String := "http://localhost:8000/docs"

def TTS_HEALTH : String := "http://localhost:8005/docs"

def LLM_HEALTH : String := "http://localhost:11434"

def FATTERBOX_CONTAINER : String := "fatterbox-tts"

def FATTERBOX_IMAGE : String := "whywillwizardry/fatterbox-multilingual:v1.0"

/-! ## HTTP outcomes and health checks (source lines 67-87) -/

/-- Outcome of one `requests.get` call: either a response with a status code
arrived, or the call raised (connection refused, DNS failure, read timeout). -/
inductive HttpResult where
  | response (status : Nat)
  | exc
  deriving DecidableEq, Repr

/-- Source `check_service` (lines 68-74): the bare `except:` catches every
exception and returns False; a received response yields `status_code < 500`. -/
def check_service : HttpResult → Bool
  | HttpResult.response status => decide (status < 500)
  | HttpResult.exc => false

/-- Result of `wait_for_service`: the returned boolean, the number of
`check_service` polls actually issued, and the list of loop indices at which a
progress marker was printed. -/
structure WaitResult where
  ok : Bool
  polls : Nat
  markers : List Nat
  deriving DecidableEq, Repr

/-- The `for i in range(max_wait)` loop of `wait_for_service` (lines 79-85),
with `i` the current index and the second argument the remaining iterations.
`checks i` is the outcome of the poll at index `i`. On success the loop
returns immediately; on failure a marker is printed when `i > 0 and
i % 10 == 0`, then the loop advances. -/
def waitFrom (checks : Nat → HttpResult) (i : Nat) : Nat → WaitResult
  | 0 => WaitResult.mk false 0 []
  | fuel + 1 =>
    if check_service (checks i) then WaitResult.mk true 1 []
    else
      WaitResult.mk (waitFrom checks (i + 1) fuel).ok
        ((waitFrom checks (i + 1) fuel).polls + 1)
        ((if 0 < i ∧ i % 10 = 0 then [i] else []) ++
          (waitFrom checks (i + 1) fuel).markers)

/-- Source `wait_for_service` (lines 76-87), with the per-poll HTTP outcomes
given by the oracle `checks`. -/
def wait_for_service (checks : Nat → HttpResult) (max_wait : Nat) : WaitResult :=
  waitFrom checks 0 max_wait

/-! ## Environment loader (source lines 14-22) -/

/-- The process environment `os.environ`, as an association list whose lookup
takes the first matching key. -/
def Env : Type := List (String × String)

/-- Lookup of a key in the environment. -/
def lookupEnv (env : List (String × String)) (k : String) : Option String :=
  (env.find? (fun p => p.1 == k)).map (fun p => p.2)

/-- `os.environ.setdefault(k, v)`: set `k` to `v` only if `k` is not already
present. -/
def setdefault (env : List (String × String)) (k v : String) :
    List (String × String) :=
  if (env.find? (fun p => p.1 == k)).isSome then env else env ++ [(k, v)]

/-- Python `line.split('=', 1)`: the part before the first `=` and the
remainder. -/
def splitFirstEq (s : String) : String × String :=
  match s.splitOn "=" with
  | [] => (s, "")
  | k :: rest => (k, String.intercalate "=" rest)

/-- Processing of one line of the env file (source lines 19-22): strip, skip
blank lines and lines starting with `#` and lines without `=`, otherwise split
on the first `=` and `setdefault` the stripped key to the stripped value. -/
def loadLine (env : List (String × String)) (raw : String) :
    List (String × String) :=
  let line := raw.trim
  if line = "" then env
  else if line.startsWith "#" then env
  else if line.contains '=' then
    let p := splitFirstEq line
    setdefault env p.1.trim p.2.trim
  else env

/-- The module-level env-file loader (source lines 14-22): `none` models an
absent file (the `ENV_FILE.exists()` guard makes loading a no-op), otherwise
each line is processed in order. -/
def loadEnvFile (file : Option (List String)) (env : List (String × String)) :
    List (String × String) :=
  match file with
  | none => env
  | some lines => lines.foldl loadLine env

/-! ## Managed processes and cleanup (source lines 42-65) -/

/-- A managed process as `cleanup` and the monitor loop see it: its name, and
whether `poll()` currently reports an exit status, and whether it would exit
within the 5-second grace period after `terminate()`. -/
structure Proc where
  name : String
  exited : Bool
  diesOnTerm : Bool
  deriving DecidableEq, Repr

/-- The externally visible actions of `cleanup` and of `main`'s exit paths. -/
inductive Action where
  | dockerStop (container : String)
  | terminate (name : String)
  | waitGrace (name : String)
  | kill (name : String)
  | exitProc (code : Nat)
  deriving DecidableEq, Repr

/-- The per-process body of `cleanup`'s loop (lines 53-60): a process whose
handle already reports an exit status (`poll() is not None`) is skipped;
otherwise it is sent `terminate()`, waited on for up to 5 seconds, and
`kill()`ed only if it is still alive after the grace period. Returns the
actions issued and the process state afterwards. -/
def cleanupProc (p : Proc) : List Action × Proc :=
  if p.exited then ([], p)
  else if p.diesOnTerm then
    ([Action.terminate p.name, Action.waitGrace p.name],
     Proc.mk p.name true p.diesOnTerm)
  else
    ([Action.terminate p.name, Action.waitGrace p.name, Action.kill p.name],
     Proc.mk p.name true p.diesOnTerm)

/-- Source `cleanup` (lines 45-62): first `docker stop` of the container (its
errors discarded: no `check=True`, stderr to DEVNULL), then the per-process
loop, then `sys.exit(0)`. Returns the action trace and the process list
afterwards. -/
def cleanup (ps : List Proc) : List Action × List Proc :=
  (Action.dockerStop FATTERBOX_CONTAINER ::
     ((ps.map (fun p => (cleanupProc p).1)).flatten ++ [Action.exitProc 0]),
   ps.map (fun p => (cleanupProc p).2))

/-- The three ways the supervisor leaves `main` (lines 230-251): Ctrl-C
(SIGINT handler or KeyboardInterrupt), a monitored process found dead with its
endpoint unhealthy, or the startup-failure branch. -/
inductive ShutdownPath where
  | userInterrupt
  | unhealthyExit
  | startupFailure
  deriving DecidableEq, Repr

/-- The tail of `main`'s action trace on each shutdown path. The first two
paths just call `cleanup()`; the startup-failure branch (lines 250-251) is
written as `cleanup()` followed by `sys.exit(1)`, so the trace lists
`exitProc 1` after `cleanup`'s own actions. -/
def mainShutdownTrace (path : ShutdownPath) (ps : List Proc) : List Action :=
  match path with
  | ShutdownPath.userInterrupt => (cleanup ps).1
  | ShutdownPath.unhealthyExit => (cleanup ps).1
  | ShutdownPath.startupFailure => (cleanup ps).1 ++ [Action.exitProc 1]

/-- `sys.exit` raises immediately, so the process's final status is the code
of the first `exitProc` in the trace. -/
def firstExitCode : List Action → Option Nat
  | [] => none
  | Action.exitProc c :: _ => some c
  | _ :: rest => firstExitCode rest

/-- The supervisor's final exit status on a given shutdown path. -/
def mainExitCode (path : ShutdownPath) (ps : List Proc) : Option Nat :=
  firstExitCode (mainShutdownTrace path ps)

/-! ## Substring containment: Python `needle in hay` (used at lines 129, 237) -/

/-- Whether `n` is a prefix of the character list `h`, matching characters one
by one. -/
def prefMatch : List Char → List Char → Bool
  | [], _ => true
  | _ :: _, [] => false
  | a :: as, b :: bs => a == b && prefMatch as bs

/-- Whether `n` occurs as a contiguous run somewhere in `h`: a prefix match is
tried at every position. -/
def subOcc (n : List Char) : List Char → Bool
  | [] => prefMatch n []
  | b :: bs => prefMatch n (b :: bs) || subOcc n bs

/-- Python's `needle in hay` substring test on strings. -/
def strContains (hay needle : String) : Bool := subOcc needle.data hay.data

/-! ## Monitor loop (source lines 230-243) -/

/-- URL dispatch of the monitor loop (line 237):
`url = STT_HEALTH if "STT" in name else TTS_HEALTH`. -/
def healthUrlFor (name : String) : String :=
  if strContains name "STT" then STT_HEALTH else TTS_HEALTH

/-- What one pass over the process list decides. -/
inductive MonitorOutcome where
  | continueMonitoring
  | shutdown (name : String)
  deriving DecidableEq, Repr

/-- One iteration of the monitor loop's `for name, proc in processes` body
(lines 234-241): a process whose handle reports exit triggers `cleanup()` only
when the follow-up check of its health endpoint fails; a healthy endpoint
means the exit is treated as benign and the scan continues. `healthy url`
is the `check_service url` outcome at this instant. -/
def monitorStep (healthy : String → Bool) : List Proc → MonitorOutcome
  | [] => MonitorOutcome.continueMonitoring
  | p :: rest =>
    if p.exited then
      if healthy (healthUrlFor p.name) then monitorStep healthy rest
      else MonitorOutcome.shutdown p.name
    else monitorStep healthy rest

/-! ## start_service (source lines 90-117) -/

/-- A launch-script path together with its containing directory and whether
the file exists on disk. -/
structure ScriptPath where
  path : String
  dir : String
  present : Bool
  deriving DecidableEq, Repr

/-- The configuration of the `subprocess.Popen` call in `start_service`
(lines 102-108): the spawned command, its working directory
(`launch_script.parent`), `preexec_fn=os.setsid` (own process group),
stdout redirected to the log file and stderr merged into stdout. -/
structure SpawnCfg where
  script : String
  cwd : String
  newProcessGroup : Bool
  stdoutLog : String
  stderrToStdout : Bool
  deriving DecidableEq, Repr

/-- The externally visible actions of `start_service`. `pollCheck` marks an
inspection of the child's exit status; the source deliberately never issues
one (comment at lines 112-113). -/
inductive StartAction where
  | mkLogDir (dir : String)
  | spawn (cfg : SpawnCfg)
  | sleep (secs : Nat)
  | pollCheck
  deriving DecidableEq, Repr

/-- Source `start_service` (lines 90-117): if the launch script does not
exist, log and return `None` with no process spawned; otherwise create the
log directory (`log_path.parent.mkdir`), spawn the script in its own process
group with output redirected to the log, sleep a fixed 2 seconds, and return
the handle without inspecting the child's exit status. `logDir` is the
parent directory of `log_file`. -/
def start_service (_name : String) (launch_script : ScriptPath)
    (log_file logDir : String) : List StartAction × Option SpawnCfg :=
  if launch_script.present = false then ([], none)
  else
    let cfg := SpawnCfg.mk launch_script.path launch_script.dir true log_file true
    ([StartAction.mkLogDir logDir, StartAction.spawn cfg, StartAction.sleep 2],
     some cfg)

/-! ## start_fatterbox (source lines 119-150) -/

/-- The container-runtime commands `start_fatterbox` can issue. -/
inductive DockerAction where
  | psFilter (nameFilter : String)
  | dockerStart (container : String)
  | followLogs (container : String)
  deriving DecidableEq, Repr

/-- Source `start_fatterbox` (lines 119-150): list containers filtered by
name; if `FATTERBOX_CONTAINER not in result.stdout`, warn and return `None`
without issuing a start command; otherwise `docker start` (returning `None`
on `CalledProcessError`), then follow the container logs as the managed
process. `psOutput` is the stdout of the listing command and `startSucceeds`
whether `docker start` exits 0; the returned handle is the log-follow
process, represented by its log file. -/
def start_fatterbox (psOutput : String) (startSucceeds : Bool)
    (log_file : String) : List DockerAction × Option String :=
  if strContains psOutput FATTERBOX_CONTAINER = false then
    ([DockerAction.psFilter FATTERBOX_CONTAINER], none)
  else if startSucceeds = false then
    ([DockerAction.psFilter FATTERBOX_CONTAINER,
      DockerAction.dockerStart FATTERBOX_CONTAINER], none)
  else
    ([DockerAction.psFilter FATTERBOX_CONTAINER,
      DockerAction.dockerStart FATTERBOX_CONTAINER,
      DockerAction.followLogs FATTERBOX_CONTAINER], some log_file)

/-! ## LLM pre-warm and readiness summary (source lines 185-227) -/

/-- Outcome of the warm-up `requests.post` (lines 191-200): a response with a
status code, a `requests.exceptions.Timeout`, or any other exception. -/
inductive WarmOutcome where
  | response (status : Nat)
  | timedOut
  | raisedExc
  deriving DecidableEq, Repr

/-- The pre-warm block (lines 186-211). It runs only when
`check_service(LLM_HEALTH)` holds; `llm_ok` starts `True` and is set `False`
on a non-200 status, a timeout, or any other exception, each logged as a
warning. Returns `(llm_ok, a warm-up warning was printed)`. -/
def preWarm (llmReachable : Bool) (w : WarmOutcome) : Bool × Bool :=
  if llmReachable then
    match w with
    | WarmOutcome.response s => if s = 200 then (true, false) else (false, true)
    | WarmOutcome.timedOut => (false, true)
    | WarmOutcome.raisedExc => (false, true)
  else (true, false)

/-- The readiness branch of the summary (line 215): `if stt_ok and tts_ok:`.
The warm-up state is in scope there but the branch condition never consults
it (`llm_ok` only selects an extra informational print at line 221). -/
def allServicesReady (stt_ok tts_ok : Bool) (_warmState : Bool × Bool) : Bool :=
  stt_ok && tts_ok

/-! ## Helper lemmas: wait_for_service -/

theorem waitFrom_polls_le (checks : Nat → HttpResult) (fuel : Nat) :
    ∀ i, (waitFrom checks i fuel).polls ≤ fuel := by
  induction fuel with
  | zero => intro i; simp [waitFrom]
  | succ n ih =>
    intro i
    by_cases h : check_service (checks i) = true
    · simp [waitFrom, h]
    · have := ih (i + 1)
      simp only [waitFrom, h, if_false, Bool.false_eq_true]
      omega

theorem waitFrom_ok_iff (checks : Nat → HttpResult) (fuel : Nat) :
    ∀ i, (waitFrom checks i fuel).ok = true ↔
      ∃ k, k < fuel ∧ check_service (checks (i + k)) = true := by
  induction fuel with
  | zero => intro i; simp [waitFrom]
  | succ n ih =>
    intro i
    by_cases h : check_service (checks i) = true
    · simp only [waitFrom, h, if_true]
      constructor
      · intro _; exact ⟨0, Nat.succ_pos n, by simpa using h⟩
      · intro _; trivial
    · simp only [waitFrom, h, if_false, Bool.false_eq_true]
      rw [ih (i + 1)]
      constructor
      · rintro ⟨k, hk, hc⟩
        refine ⟨k + 1, by omega, ?_⟩
        rwa [show i + (k + 1) = i + 1 + k by omega]
      · rintro ⟨k, hk, hc⟩
        cases k with
        | zero => exact absurd (by simpa using hc) h
        | succ m =>
          refine ⟨m, by omega, ?_⟩
          rwa [show i + 1 + m = i + (m + 1) by omega]

theorem waitFrom_first_success (checks : Nat → HttpResult) :
    ∀ k fuel i, k < fuel → check_service (checks (i + k)) = true →
    (∀ j, j < k → check_service (checks (i + j)) = false) →
    (waitFrom checks i fuel).ok = true ∧ (waitFrom checks i fuel).polls = k + 1 := by
  intro k
  induction k with
  | zero =>
    intro fuel i hk hc _
    match fuel, hk with
    | n + 1, _ =>
      have h0 : check_service (checks i) = true := by simpa using hc
      simp [waitFrom, h0]
  | succ m ih =>
    intro fuel i hk hc hf
    match fuel, hk with
    | n + 1, hk =>
      have h0 : check_service (checks i) = false := by
        simpa using hf 0 (Nat.succ_pos m)
      have hrec := ih n (i + 1) (by omega)
        (by rwa [show i + 1 + m = i + (m + 1) by omega])
        (fun j hj => by
          have := hf (j + 1) (by omega)
          rwa [show i + (j + 1) = i + 1 + j by omega] at this)
      simp only [waitFrom, h0, Bool.false_eq_true, if_false]
      exact ⟨hrec.1, by omega⟩

theorem waitFrom_markers_mem (checks : Nat → HttpResult) (fuel : Nat) :
    ∀ i m, m ∈ (waitFrom checks i fuel).markers →
      0 < m ∧ m % 10 = 0 ∧ i ≤ m ∧ m < i + fuel := by
  induction fuel with
  | zero => intro i m hm; simp [waitFrom] at hm
  | succ n ih =>
    intro i m hm
    by_cases h : check_service (checks i) = true
    · simp [waitFrom, h] at hm
    · simp only [waitFrom, h, Bool.false_eq_true, if_false,
        List.mem_append] at hm
      rcases hm with hm | hm
      · by_cases hc : 0 < i ∧ i % 10 = 0
        · rw [if_pos hc] at hm
          have : m = i := by simpa using hm
          subst this
          exact ⟨hc.1, hc.2, Nat.le_refl m, by omega⟩
        · rw [if_neg hc] at hm
          simp at hm
      · have := ih (i + 1) m hm
        exact ⟨this.1, this.2.1, by omega, by omega⟩

theorem waitFrom_markers_complete (checks : Nat → HttpResult)
    (hall : ∀ j, check_service (checks j) = false) (fuel : Nat) :
    ∀ i m, 0 < m → m % 10 = 0 → i ≤ m → m < i + fuel →
      m ∈ (waitFrom checks i fuel).markers := by
  induction fuel with
  | zero => intro i m _ _ h1 h2; omega
  | succ n ih =>
    intro i m hm hmod hi hlt
    have h := hall i
    simp only [waitFrom, h, Bool.false_eq_true, if_false, List.mem_append]
    by_cases he : m = i
    · left
      subst he
      rw [if_pos ⟨hm, hmod⟩]
      simp
    · right
      exact ih (i + 1) m hm hmod (by omega) (by omega)

/-! ## Helper lemmas: substring containment -/

theorem prefMatch_iff (n : List Char) :
    ∀ h : List Char, prefMatch n h = true ↔ ∃ r, h = n ++ r := by
  induction n with
  | nil => intro h; simp [prefMatch]
  | cons a as ih =>
    intro h
    cases h with
    | nil => simp [prefMatch]
    | cons b bs =>
      simp only [prefMatch, Bool.and_eq_true, beq_iff_eq, List.cons_append,
        List.cons.injEq]
      rw [ih bs]
      constructor
      · rintro ⟨rfl, r, rfl⟩
        exact ⟨r, rfl, rfl⟩
      · rintro ⟨r, rfl, rfl⟩
        exact ⟨rfl, r, rfl⟩

theorem subOcc_iff (n : List Char) :
    ∀ h : List Char, subOcc n h = true ↔ ∃ l r, h = l ++ n ++ r := by
  intro h
  induction h with
  | nil =>
    simp only [subOcc]
    rw [prefMatch_iff]
    constructor
    · rintro ⟨r, hr⟩
      exact ⟨[], r, by simpa using hr⟩
    · rintro ⟨l, r, hr⟩
      rcases List.append_eq_nil.mp hr.symm with ⟨h1, h2⟩
      rcases List.append_eq_nil.mp h1 with ⟨rfl, rfl⟩
      exact ⟨r, by simpa using hr⟩
  | cons b bs ih =>
    simp only [subOcc, Bool.or_eq_true]
    rw [prefMatch_iff, ih]
    constructor
    · rintro (⟨r, hr⟩ | ⟨l, r, hr⟩)
      · exact ⟨[], r, by simpa using hr⟩
      · exact ⟨b :: l, r, by simp [hr]⟩
    · rintro ⟨l, r, hr⟩
      cases l with
      | nil => exact Or.inl ⟨r, by simpa using hr⟩
      | cons c cl =>
        refine Or.inr ⟨cl, r, ?_⟩
        simp only [List.cons_append, List.cons.injEq] at hr
        exact hr.2

theorem strContains_iff (hay needle : String) :
    strContains hay needle = true ↔ ∃ l r : String, hay = l ++ needle ++ r := by
  unfold strContains
  rw [subOcc_iff]
  constructor
  · rintro ⟨l, r, hr⟩
    refine ⟨String.mk l, String.mk r, String.ext ?_⟩
    rw [String.data_append, String.data_append]
    exact hr
  · rintro ⟨l, r, hr⟩
    refine ⟨l.data, r.data, ?_⟩
    rw [hr, String.data_append, String.data_append]

/-! ## Helper lemmas: environment loader -/

theorem lookupEnv_append_of_some (env tail : List (String × String))
    (k : String) (v : String) (h : lookupEnv env k = some v) :
    lookupEnv (env ++ tail) k = some v := by
  unfold lookupEnv at h ⊢
  rcases ho : env.find? (fun p => p.1 == k) with _ | a
  · rw [ho] at h; simp at h
  · rw [ho] at h
    rw [List.find?_append, ho]
    simpa using h

theorem lookupEnv_setdefault_of_some (env : List (String × String))
    (k0 v0 k v : String) (h : lookupEnv env k = some v) :
    lookupEnv (setdefault env k0 v0) k = some v := by
  unfold setdefault
  by_cases hp : (env.find? (fun p => p.1 == k0)).isSome
  · rwa [if_pos hp]
  · rw [if_neg hp]
    exact lookupEnv_append_of_some env [(k0, v0)] k v h

theorem lookupEnv_loadLine_of_some (env : List (String × String))
    (raw k v : String) (h : lookupEnv env k = some v) :
    lookupEnv (loadLine env raw) k = some v := by
  unfold loadLine
  by_cases h1 : raw.trim = ""
  · rwa [if_pos h1]
  · rw [if_neg h1]
    by_cases h2 : raw.trim.startsWith "#"
    · rwa [if_pos h2]
    · rw [if_neg h2]
      by_cases h3 : raw.trim.contains '='
      · rw [if_pos h3]
        exact lookupEnv_setdefault_of_some env _ _ k v h
      · rwa [if_neg h3]

theorem lookupEnv_foldl_of_some (lines : List String) :
    ∀ (env : List (String × String)) (k v : String),
      lookupEnv env k = some v →
      lookupEnv (lines.foldl loadLine env) k = some v := by
  induction lines with
  | nil => intro env k v h; simpa using h
  | cons line rest ih =>
    intro env k v h
    simp only [List.foldl_cons]
    exact ih (loadLine env line) k v (lookupEnv_loadLine_of_some env line k v h)

/-! ## Helper lemmas: cleanup -/

theorem cleanupProc_of_exited (p : Proc) (h : p.exited = true) :
    cleanupProc p = ([], p) := by
  simp [cleanupProc, h]

theorem cleanupProc_snd_exited (p : Proc) : ((cleanupProc p).2).exited = true := by
  by_cases h : p.exited = true
  · simp [cleanupProc, h]
  · by_cases h2 : p.diesOnTerm = true <;>
      simp [cleanupProc, h, h2]

theorem cleanup_all_exited (ps : List Proc) :
    ∀ p ∈ (cleanup ps).2, p.exited = true := by
  intro p hp
  simp only [cleanup, List.mem_map] at hp
  obtain ⟨q, _, rfl⟩ := hp
  exact cleanupProc_snd_exited q

theorem cleanup_of_all_exited (ps : List Proc)
    (h : ∀ p ∈ ps, p.exited = true) :
    cleanup ps = ([Action.dockerStop FATTERBOX_CONTAINER, Action.exitProc 0], ps) := by
  unfold cleanup
  have h1 : ps.map (fun p => (cleanupProc p).1) = ps.map (fun _ => []) :=
    List.map_congr_left (fun p hp => by rw [cleanupProc_of_exited p (h p hp)])
  have h2 : ps.map (fun p => (cleanupProc p).2) = ps :=
    (List.map_congr_left (fun p hp => by
      rw [cleanupProc_of_exited p (h p hp)]; rfl)).trans (List.map_id ps)
  rw [h1, h2]
  congr 1
  rw [List.flatten_eq_nil_iff.mpr (by simp)]
  rfl

theorem cleanupProc_no_exit (p : Proc) :
    ∀ a ∈ (cleanupProc p).1, ∀ c, a ≠ Action.exitProc c := by
  by_cases h : p.exited = true
  · simp [cleanupProc, h]
  · by_cases h2 : p.diesOnTerm = true <;>
      simp [cleanupProc, h, h2]

theorem firstExitCode_append_of_no_exit (l rest : List Action)
    (h : ∀ a ∈ l, ∀ c, a ≠ Action.exitProc c) :
    firstExitCode (l ++ rest) = firstExitCode rest := by
  induction l with
  | nil => rfl
  | cons a t ih =>
    have ha := h a (List.mem_cons_self a t)
    have ht : ∀ b ∈ t, ∀ c, b ≠ Action.exitProc c :=
      fun b hb => h b (List.mem_cons_of_mem a hb)
    cases a with
    | exitProc c => exact absurd rfl (ha c)
    | dockerStop s => simpa [firstExitCode] using ih ht
    | terminate s => simpa [firstExitCode] using ih ht
    | waitGrace s => simpa [firstExitCode] using ih ht
    | kill s => simpa [firstExitCode] using ih ht

theorem flatten_cleanup_no_exit (ps : List Proc) :
    ∀ a ∈ (ps.map (fun p => (cleanupProc p).1)).flatten,
      ∀ c, a ≠ Action.exitProc c := by
  intro a ha
  simp only [List.mem_flatten, List.mem_map] at ha
  obtain ⟨l, ⟨p, _, rfl⟩, hal⟩ := ha
  exact cleanupProc_no_exit p a hal

theorem firstExitCode_cleanup_append (ps : List Proc) (tail : List Action) :
    firstExitCode ((cleanup ps).1 ++ tail) = some 0 := by
  show firstExitCode ((Action.dockerStop FATTERBOX_CONTAINER ::
    ((ps.map (fun p => (cleanupProc p).1)).flatten ++ [Action.exitProc 0])) ++ tail)
    = some 0
  rw [List.cons_append]
  show firstExitCode ((ps.map (fun p => (cleanupProc p).1)).flatten ++
    [Action.exitProc 0] ++ tail) = some 0
  rw [List.append_assoc]
  rw [firstExitCode_append_of_no_exit _ _ (flatten_cleanup_no_exit ps)]
  rfl

theorem firstExitCode_cleanup (ps : List Proc) :
    firstExitCode (cleanup ps).1 = some 0 := by
  have := firstExitCode_cleanup_append ps []
  simpa using this

/-! ## Helper lemmas: monitor loop -/

theorem monitorStep_continue_iff (healthy : String → Bool) :
    ∀ ps : List Proc,
      monitorStep healthy ps = MonitorOutcome.continueMonitoring ↔
      ∀ p ∈ ps, p.exited = true → healthy (healthUrlFor p.name) = true := by
  intro ps
  induction ps with
  | nil => simp [monitorStep]
  | cons p rest ih =>
    by_cases he : p.exited = true
    · by_cases hh : healthy (healthUrlFor p.name) = true
      · simp only [monitorStep, he, if_true, hh]
        rw [ih]
        constructor
        · intro hall q hq
          rcases List.mem_cons.mp hq with rfl | hq
          · intro _; exact hh
          · exact hall q hq
        · intro hall q hq
          exact hall q (List.mem_cons_of_mem p hq)
      · simp only [monitorStep, he, if_true, hh, Bool.false_eq_true, if_false]
        constructor
        · intro hcontra; exact absurd hcontra (by simp)
        · intro hall
          exact absurd (hall p (List.mem_cons_self p rest) he) hh
    · simp only [monitorStep, he, Bool.false_eq_true, if_false]
      rw [ih]
      constructor
      · intro hall q hq
        rcases List.mem_cons.mp hq with rfl | hq
        · intro hq2; exact absurd hq2 he
        · exact hall q hq
      · intro hall q hq
        exact hall q (List.mem_cons_of_mem p hq)

theorem monitorStep_shutdown_char (healthy : String → Bool) :
    ∀ (ps : List Proc) (nm : String),
      monitorStep healthy ps = MonitorOutcome.shutdown nm →
      ∃ p ∈ ps, p.name = nm ∧ p.exited = true ∧
        healthy (healthUrlFor p.name) = false := by
  intro ps
  induction ps with
  | nil => intro nm h; simp [monitorStep] at h
  | cons p rest ih =>
    intro nm h
    by_cases he : p.exited = true
    · by_cases hh : healthy (healthUrlFor p.name) = true
      · simp only [monitorStep, he, if_true, hh] at h
        obtain ⟨q, hq, hrest⟩ := ih nm h
        exact ⟨q, List.mem_cons_of_mem p hq, hrest⟩
      · simp only [monitorStep, he, if_true, hh, Bool.false_eq_true,
          if_false, MonitorOutcome.shutdown.injEq] at h
        exact ⟨p, List.mem_cons_self p rest, h, he, by simpa using hh⟩
    · simp only [monitorStep, he, Bool.false_eq_true, if_false] at h
      obtain ⟨q, hq, hrest⟩ := ih nm h
      exact ⟨q, List.mem_cons_of_mem p hq, hrest⟩

/-! ## Claim theorems -/

/-- Claim C1, refuted on the code: every shutdown path ends in `cleanup`'s
unconditional `sys.exit(0)`, so the process's final exit status is 0 even when
startup fails; the `sys.exit(1)` written after `cleanup()` in the failure
branch is unreachable, visible below as the `exitProc 1` stranded after the
`exitProc 0` in the trace. -/
theorem exit_code_always_zero :
    (∀ path ps, mainExitCode path ps = some 0) ∧
    mainExitCode ShutdownPath.startupFailure [Proc.mk "STT" false true] = some 0 ∧
    mainShutdownTrace ShutdownPath.startupFailure [] =
      [Action.dockerStop "fatterbox-tts", Action.exitProc 0, Action.exitProc 1] := by
  refine ⟨?_, ?_, ?_⟩
  · intro path ps
    cases path with
    | userInterrupt => exact firstExitCode_cleanup ps
    | unhealthyExit => exact firstExitCode_cleanup ps
    | startupFailure => exact firstExitCode_cleanup_append ps [Action.exitProc 1]
  · exact firstExitCode_cleanup_append [Proc.mk "STT" false true] [Action.exitProc 1]
  · rfl

/-- Claim C2: cleanup is idempotent. A process whose handle already reports an
exit status is skipped (no terminate, state unchanged); after one cleanup every
managed process reports an exit status, so a second invocation issues only the
(idempotent) docker stop and the exit, terminating and killing nothing, and the
process list is unchanged; the model is a total function, so no exception is
raised. -/
theorem cleanup_idempotent (ps : List Proc) :
    (∀ p : Proc, p.exited = true → cleanupProc p = ([], p)) ∧
    (∀ p ∈ (cleanup ps).2, p.exited = true) ∧
    (cleanup ((cleanup ps).2)).1 =
      [Action.dockerStop FATTERBOX_CONTAINER, Action.exitProc 0] ∧
    (cleanup ((cleanup ps).2)).2 = (cleanup ps).2 := by
  have hall := cleanup_all_exited ps
  have h2 := cleanup_of_all_exited _ hall
  exact ⟨fun p hp => cleanupProc_of_exited p hp, hall, by rw [h2], by rw [h2]⟩

/-- Witness for C2 at a concrete process list: the second cleanup issues no
terminate or kill. -/
theorem cleanup_idempotent_witness :
    (cleanup ((cleanup [Proc.mk "STT" true true,
        Proc.mk "TTS (Log Stream)" false false]).2)).1 =
      [Action.dockerStop FATTERBOX_CONTAINER, Action.exitProc 0] :=
  (cleanup_idempotent [Proc.mk "STT" true true,
    Proc.mk "TTS (Log Stream)" false false]).2.2.1

/-- Claim C3: check_service never raises (the bare `except:` catches every
exception and returns False); it returns true exactly when a response arrives
with status code below 500, and false for every raised exception and for every
response with status 500 or above. -/
theorem check_service_spec (o : HttpResult) :
    (check_service o = true ↔ ∃ s, o = HttpResult.response s ∧ s < 500) ∧
    check_service HttpResult.exc = false ∧
    (∀ s, 500 ≤ s → check_service (HttpResult.response s) = false) := by
  refine ⟨?_, rfl, ?_⟩
  · cases o with
    | response s =>
      by_cases hl : s < 500
      · simp [check_service, hl]
      · simp [check_service, hl]
    | exc => simp [check_service]
  · intro s hs
    simp [check_service]
    omega

/-- Witness for C3: a 503 response checks false, a 404 response checks true. -/
theorem check_service_spec_witness :
    check_service (HttpResult.response 503) = false ∧
    check_service (HttpResult.response 404) = true :=
  ⟨(check_service_spec (HttpResult.response 503)).2.2 503 (by omega), by decide⟩

/-- Claim C4: wait_for_service returns true as soon as one poll of
check_service succeeds (issuing exactly first-success-index + 1 polls), never
polls more than max_wait times, returns false immediately without polling when
max_wait = 0, and prints a progress marker exactly at the positive multiples
of 10 seconds reached while waiting. -/
theorem wait_for_service_spec (checks : Nat → HttpResult) (max_wait : Nat) :
    ((wait_for_service checks max_wait).ok = true ↔
      ∃ i, i < max_wait ∧ check_service (checks i) = true) ∧
    (wait_for_service checks max_wait).polls ≤ max_wait ∧
    wait_for_service checks 0 = WaitResult.mk false 0 [] ∧
    (∀ k, k < max_wait → check_service (checks k) = true →
      (∀ j, j < k → check_service (checks j) = false) →
      (wait_for_service checks max_wait).ok = true ∧
        (wait_for_service checks max_wait).polls = k + 1) ∧
    (∀ m, m ∈ (wait_for_service checks max_wait).markers →
      0 < m ∧ m % 10 = 0 ∧ m < max_wait) ∧
    ((∀ j, check_service (checks j) = false) →
      ∀ m, 0 < m → m % 10 = 0 → m < max_wait →
        m ∈ (wait_for_service checks max_wait).markers) := by
  refine ⟨?_, waitFrom_polls_le checks max_wait 0, rfl, ?_, ?_, ?_⟩
  · simpa using waitFrom_ok_iff checks max_wait 0
  · intro k hk hc hf
    exact waitFrom_first_success checks k max_wait 0 hk (by simpa using hc)
      (fun j hj => by simpa using hf j hj)
  · intro m hm
    have := waitFrom_markers_mem checks max_wait 0 m hm
    exact ⟨this.1, this.2.1, by omega⟩
  · intro hall m h1 h2 h3
    exact waitFrom_markers_complete checks hall max_wait 0 m h1 h2 (by omega)
      (by omega)

/-- Witness for C4: with the first success at poll index 2 and a budget of 30,
the wait returns true after exactly 3 polls. -/
theorem wait_for_service_spec_witness :
    (wait_for_service
      (fun i => if i = 2 then HttpResult.response 200 else HttpResult.exc) 30).ok
      = true ∧
    (wait_for_service
      (fun i => if i = 2 then HttpResult.response 200 else HttpResult.exc) 30).polls
      = 2 + 1 :=
  (wait_for_service_spec
    (fun i => if i = 2 then HttpResult.response 200 else HttpResult.exc) 30).2.2.2.1
    2 (by omega) (by decide)
    (fun j hj => by
      have hj2 : j = 0 ∨ j = 1 := by omega
      rcases hj2 with rfl | rfl <;> decide)

/-- Claim C5: the environment loader tolerates an absent file (no change, no
error), skips blank lines and lines whose stripped form starts with the
comment marker, and never overwrites a variable already present: every
pre-existing binding looks up to the same value after loading. -/
theorem env_loader_spec (file : Option (List String))
    (env : List (String × String)) (k v : String) :
    loadEnvFile none env = env ∧
    (∀ raw, raw.trim = "" → loadLine env raw = env) ∧
    (∀ raw, raw.trim.startsWith "#" = true → loadLine env raw = env) ∧
    (lookupEnv env k = some v → lookupEnv (loadEnvFile file env) k = some v) := by
  refine ⟨rfl, ?_, ?_, ?_⟩
  · intro raw h
    simp [loadLine, h]
  · intro raw h
    by_cases h1 : raw.trim = ""
    · simp [loadLine, h1]
    · simp [loadLine, h1, h]
  · intro h
    cases file with
    | none => simpa using h
    | some lines => exact lookupEnv_foldl_of_some lines env k v h

/-- Witness for C5: a pre-existing variable keeps its value after loading a
file that tries to overwrite it and also holds comment, blank, and fresh
lines. -/
theorem env_loader_spec_witness :
    lookupEnv (loadEnvFile
      (some ["LOCAL_LLM_MODEL=qwen3:8b", "# a comment", "", "NEW_KEY=1"])
      [("LOCAL_LLM_MODEL", "ministral-3:14b")]) "LOCAL_LLM_MODEL"
      = some "ministral-3:14b" :=
  (env_loader_spec (some ["LOCAL_LLM_MODEL=qwen3:8b", "# a comment", "", "NEW_KEY=1"])
    [("LOCAL_LLM_MODEL", "ministral-3:14b")] "LOCAL_LLM_MODEL"
    "ministral-3:14b").2.2.2 (by decide)

/-- Claim C6: during monitoring, a process whose handle reports exit triggers
shutdown only when the follow-up check of its health endpoint fails; the scan
continues (never initiating shutdown) whenever every exited process's endpoint
is still healthy. The endpoint is the one the source's name dispatch selects. -/
theorem monitor_benign_exit (healthy : String → Bool) (ps : List Proc) :
    (monitorStep healthy ps = MonitorOutcome.continueMonitoring ↔
      ∀ p ∈ ps, p.exited = true → healthy (healthUrlFor p.name) = true) ∧
    (∀ nm, monitorStep healthy ps = MonitorOutcome.shutdown nm →
      ∃ p ∈ ps, p.name = nm ∧ p.exited = true ∧
        healthy (healthUrlFor p.name) = false) ∧
    healthUrlFor "STT" = STT_HEALTH ∧
    healthUrlFor "TTS (Log Stream)" = TTS_HEALTH := by
  refine ⟨monitorStep_continue_iff healthy ps,
    monitorStep_shutdown_char healthy ps, by decide, by decide⟩

/-- Witness for C6, end-to-end scenario 3: the TTS log-follower has exited but
every endpoint still answers healthily, and monitoring continues. -/
theorem monitor_benign_exit_witness :
    monitorStep (fun _ => true) [Proc.mk "TTS (Log Stream)" true false] =
      MonitorOutcome.continueMonitoring :=
  (monitor_benign_exit (fun _ => true)
    [Proc.mk "TTS (Log Stream)" true false]).1.mpr
    (fun _ _ _ => rfl)

/-- Claim C7: on every invocation of cleanup the container stop command comes
first (the trace starts with it), and each still-alive managed process is sent
a graceful terminate followed by the 5-second wait, with a force-kill appended
exactly when the process does not die within the grace period; every shutdown
path of main runs this same cleanup routine first. -/
theorem cleanup_ordering (ps : List Proc) :
    (∃ rest, (cleanup ps).1 = Action.dockerStop FATTERBOX_CONTAINER :: rest) ∧
    (∀ p : Proc, p.exited = false → p.diesOnTerm = true →
      (cleanupProc p).1 = [Action.terminate p.name, Action.waitGrace p.name]) ∧
    (∀ p : Proc, p.exited = false → p.diesOnTerm = false →
      (cleanupProc p).1 =
        [Action.terminate p.name, Action.waitGrace p.name, Action.kill p.name]) ∧
    (∀ path, ∃ tail, mainShutdownTrace path ps = (cleanup ps).1 ++ tail) := by
  refine ⟨⟨_, rfl⟩, ?_, ?_, ?_⟩
  · intro p h1 h2
    simp [cleanupProc, h1, h2]
  · intro p h1 h2
    simp [cleanupProc, h1, h2]
  · intro path
    cases path with
    | userInterrupt => exact ⟨[], by simp [mainShutdownTrace]⟩
    | unhealthyExit => exact ⟨[], by simp [mainShutdownTrace]⟩
    | startupFailure => exact ⟨[Action.exitProc 1], rfl⟩

/-- Witness for C7: a live process that resists terminate is terminated,
waited on, and only then killed. -/
theorem cleanup_ordering_witness :
    (cleanupProc (Proc.mk "STT" false false)).1 =
      [Action.terminate "STT", Action.waitGrace "STT", Action.kill "STT"] :=
  (cleanup_ordering []).2.2.1 (Proc.mk "STT" false false) rfl rfl

/-- Claim C8: start_service spawns nothing and returns None when the launch
script does not exist; otherwise it creates the log directory, spawns the
script in its own process group with stdout and stderr redirected to the log
file, sleeps a fixed 2 seconds, and returns the handle; no action inspecting
the child's exit status is ever issued. -/
theorem start_service_spec (name : String) (script : ScriptPath)
    (log_file logDir : String) :
    (script.present = false → start_service name script log_file logDir = ([], none)) ∧
    (script.present = true → start_service name script log_file logDir =
      ([StartAction.mkLogDir logDir,
        StartAction.spawn (SpawnCfg.mk script.path script.dir true log_file true),
        StartAction.sleep 2],
       some (SpawnCfg.mk script.path script.dir true log_file true))) ∧
    (∀ a ∈ (start_service name script log_file logDir).1,
      a ≠ StartAction.pollCheck) := by
  refine ⟨?_, ?_, ?_⟩
  · intro h
    simp [start_service, h]
  · intro h
    simp [start_service, h]
  · intro a ha
    by_cases h : script.present = true
    · simp only [start_service, h, Bool.true_eq_false, if_false,
        List.mem_cons, List.mem_singleton] at ha
      rcases ha with rfl | rfl | rfl | h0
      · simp
      · simp
      · simp
      · simp at h0
    · have h' : script.present = false := by simpa using h
      simp [start_service, h'] at ha

/-- Witness for C8: with the STT launch script missing, no process is spawned
and None is returned. -/
theorem start_service_spec_witness :
    start_service "STT (Faster Whisper)"
      (ScriptPath.mk "launch_stt.sh" "faster-whisper-stt" false)
      "stt_service.log" "." = ([], none) :=
  (start_service_spec "STT (Faster Whisper)"
    (ScriptPath.mk "launch_stt.sh" "faster-whisper-stt" false)
    "stt_service.log" ".").1 rfl

/-- Claim C9: the LLM warm-up is best-effort. For every warm-up outcome the
readiness decision equals stt_ok AND tts_ok (so it never depends on the
warm-up); every failing outcome (non-200 status, timeout, other exception)
only clears llm_ok and logs a warning, and a 200 response keeps llm_ok. -/
theorem llm_warmup_best_effort (stt_ok tts_ok llmReachable : Bool)
    (w : WarmOutcome) :
    allServicesReady stt_ok tts_ok (preWarm llmReachable w) = (stt_ok && tts_ok) ∧
    (∀ w2, allServicesReady stt_ok tts_ok (preWarm llmReachable w) =
      allServicesReady stt_ok tts_ok (preWarm llmReachable w2)) ∧
    (w ≠ WarmOutcome.response 200 → preWarm true w = (false, true)) ∧
    preWarm true (WarmOutcome.response 200) = (true, false) := by
  refine ⟨rfl, fun w2 => rfl, ?_, rfl⟩
  intro h
  cases w with
  | response s =>
    have hs : ¬ s = 200 := fun hs => h (by rw [hs])
    simp [preWarm, hs]
  | timedOut => rfl
  | raisedExc => rfl

/-- Witness for C9: a warm-up timeout clears llm_ok, logs the warning, and
leaves the readiness decision (both health checks passed) at true. -/
theorem llm_warmup_best_effort_witness :
    preWarm true WarmOutcome.timedOut = (false, true) ∧
    allServicesReady true true (preWarm true WarmOutcome.timedOut) = true :=
  ⟨(llm_warmup_best_effort true true true WarmOutcome.timedOut).2.2.1 (by decide),
   (llm_warmup_best_effort true true true WarmOutcome.timedOut).1⟩

/-- Claim C10: start_fatterbox treats the container as existing exactly when
the container name occurs as a substring of the listing output (so any listed
name merely containing it counts), and when absent it returns None without
issuing a start command. -/
theorem fatterbox_substring_detection (psOutput : String) (startSucceeds : Bool)
    (log_file : String) :
    (strContains psOutput FATTERBOX_CONTAINER = true ↔
      ∃ l r : String, psOutput = l ++ FATTERBOX_CONTAINER ++ r) ∧
    (strContains psOutput FATTERBOX_CONTAINER = false →
      start_fatterbox psOutput startSucceeds log_file =
        ([DockerAction.psFilter FATTERBOX_CONTAINER], none)) ∧
    (strContains psOutput FATTERBOX_CONTAINER = false →
      DockerAction.dockerStart FATTERBOX_CONTAINER ∉
        (start_fatterbox psOutput startSucceeds log_file).1) ∧
    (strContains psOutput FATTERBOX_CONTAINER = true →
      DockerAction.dockerStart FATTERBOX_CONTAINER ∈
        (start_fatterbox psOutput startSucceeds log_file).1) := by
  refine ⟨strContains_iff psOutput FATTERBOX_CONTAINER, ?_, ?_, ?_⟩
  · intro h
    simp [start_fatterbox, h]
  · intro h
    simp [start_fatterbox, h]
  · intro h
    by_cases hs : startSucceeds = true
    · simp [start_fatterbox, h, hs]
    · have hs' : startSucceeds = false := by simpa using hs
      simp [start_fatterbox, h, hs']

/-- Witness for C10: a listing of a different container whose name merely
contains the target as a substring still counts as existing (a start command
is issued), while a listing without the name yields None and no start. -/
theorem fatterbox_substring_detection_witness :
    DockerAction.dockerStart FATTERBOX_CONTAINER ∈
      (start_fatterbox "fatterbox-tts-old\n" true "tts_service.log").1 ∧
    start_fatterbox "other-container\n" true "tts_service.log" =
      ([DockerAction.psFilter FATTERBOX_CONTAINER], none) :=
  ⟨(fatterbox_substring_detection "fatterbox-tts-old\n" true
      "tts_service.log").2.2.2 (by decide),
   (fatterbox_substring_detection "other-container\n" true
      "tts_service.log").2.1 (by decide)⟩

end LocalServices
